import Mathlib

/-!
Verification of the campaign launch and dispatch core of the
campaign-pilot-launch application.

The subject of the claims is the `send-campaign-emails` edge function:
its launch `handler` (auth check, bulk recipient insertion, campaign
activation) and the detached `sendEmailsInBackground` loop (per-recipient
placeholder rendering, mail dispatch, per-recipient status writes,
periodic checkpoints, final campaign write).  The embedding below
translates that code; strings are Lean `String`s, JS objects with string
fields are association lists in insertion order, and absent (undefined)
JS values are `Option.none`.  External effects (store writes, mail-send
calls, the inter-message delay) are recorded as an explicit event trace,
and the external mail service is a parameter giving the outcome of the
n-th send call.
-/

namespace CampaignPilot

/-- One uploaded CSV row / recipient data record: field name to string
value, in column order.  A missing key models an absent (undefined) JS
field. -/
abbrev Row := List (String × String)

/-- An email template: subject and body strings, possibly containing
placeholder tokens of the form `{{name}}`. -/
structure Template where
  subject : String
  body : String
deriving DecidableEq, Repr

/-- The placeholder-to-CSV-column mapping: JS object entries in
insertion order (`Object.entries(placeholderMappings)`). -/
abbrev Mapping := List (String × String)

/-- JS expansion of the replacement string at one match
(GetSubstitution): a dollar followed by a dollar yields a literal
dollar, dollar-ampersand yields the matched text, dollar-backquote
(code 96) yields the part of the target string before the match,
dollar-quote (code 39) the part after it; any other dollar (including
group references, since the escaped pattern has no capture groups) is
left literal. -/
def expandDollar (matched before after : List Char) : List Char → List Char
  | [] => []
  | [c] => [c]
  | c :: d :: rest =>
    if c = Char.ofNat 36 then
      if d = Char.ofNat 36 then d :: expandDollar matched before after rest
      else if d = Char.ofNat 38 then matched ++ expandDollar matched before after rest
      else if d = Char.ofNat 96 then before ++ expandDollar matched before after rest
      else if d = Char.ofNat 39 then after ++ expandDollar matched before after rest
      else c :: d :: expandDollar matched before after rest
    else c :: expandDollar matched before after (d :: rest)

/-- Left-to-right, non-overlapping replacement of every occurrence of
`pat` in the scanned list: the behaviour of
`str.replace(new RegExp(escaped(pat), g-flag), rep)` for a nonempty
`pat` whose regex metacharacters have been escaped (migration file,
dispatcher line 233).  Because the pattern is a literal, every match
equals `pat`; the replacement string `rep` is expanded per match with
the JS dollar patterns, where `pre` is the part of the target string
already scanned (the text before the match) and the drop is the text
after it.  Scanning resumes after the inserted expansion, so one pass
never rescans what it inserted.  `fuel` bounds the recursion
structurally; every caller passes the scanned list's length, which
always suffices because each step consumes at least one character. -/
def replTR (pat rep : List Char) : List Char → List Char → Nat → List Char
  | _, l, 0 => l
  | _, [], _ + 1 => []
  | pre, c :: cs, fuel + 1 =>
    if pat.isPrefixOf (c :: cs) then
      expandDollar pat pre (cs.drop (pat.length - 1)) rep ++
        replTR pat rep (pre ++ pat) (cs.drop (pat.length - 1)) fuel
    else
      c :: replTR pat rep (pre ++ [c]) cs fuel

/-- Replace every occurrence of `pat` in `s` by the per-match
expansion of `rep`.  The empty pattern is guarded off (no claim
involves an empty placeholder token; JS would interleave `rep` between
characters there). -/
def replaceAll (s pat rep : String) : String :=
  if pat.data.isEmpty then s else ⟨replTR pat.data rep.data [] s.data s.data.length⟩

/-- `noInnerMatch p q`: the token `q` cannot begin a match at any
offset inside an occurrence of `p`, whatever text follows: at every
offset `j` of `p`, neither is `q` a prefix of the rest of `p` nor the
rest of `p` a prefix of `q`.  Distinct well-formed placeholder tokens
(double-braced, nonempty brace-free names) satisfy it in both
directions. -/
def noInnerMatch (p q : List Char) : Bool :=
  (List.range p.length).all fun j =>
    !(q.isPrefixOf (p.drop j)) && !((p.drop j).isPrefixOf q)

/-- Two tokens are independent when neither can begin a match inside
an occurrence of the other. -/
def independentTok (p q : String) : Bool :=
  noInnerMatch p.data q.data && noInnerMatch q.data p.data

/-- `occursIn pat l`: `pat` occurs as a contiguous sublist of `l`. -/
def occursIn (pat : List Char) : List Char → Bool
  | [] => pat.isEmpty
  | c :: cs => pat.isPrefixOf (c :: cs) || occursIn pat cs

/-- String-level occurrence test. -/
def occursS (pat s : String) : Bool :=
  occursIn pat.data s.data

/-- JS `recipient.data[csvColumn] || ''` (dispatcher line 232): the
row's value for the column, with both an absent key and an empty value
collapsing to the empty string. -/
def valueOf (row : Row) (col : String) : String :=
  (row.lookup col).getD ""

/-- The per-recipient rendering step of the dispatcher (lines 228-236):
starting from the template's subject and body, each mapping entry
`(placeholder, csvColumn)` in turn replaces every occurrence of the
placeholder token, matched as a literal string, by the recipient's
value for the column (empty when absent), in both subject and body. -/
def render (t : Template) (mapping : Mapping) (row : Row) : String × String :=
  mapping.foldl
    (fun acc e =>
      (replaceAll acc.1 e.1 (valueOf row e.2),
       replaceAll acc.2 e.1 (valueOf row e.2)))
    (t.subject, t.body)

/-- The sender configuration supplied at launch and forwarded, unexamined,
to the mail-send capability. -/
structure SmtpConfig where
  host : String
  port : Nat
  senderEmail : String
  senderName : String
  appPassword : String
deriving DecidableEq, Repr

/-- Delivery status of one recipient row (`pending` at insertion,
`sent` or `failed msg` written by the dispatcher). -/
inductive RStatus where
  | pending
  | sent
  | failed (msg : String)
deriving DecidableEq, Repr

/-- Campaign lifecycle status. -/
inductive CStatus where
  | draft
  | active
  | completed
  | paused
deriving DecidableEq, Repr

/-- The token `{{email}}` (written with escaped braces). -/
def emailTok : String := "\x7b\x7bemail\x7d\x7d"

/-- Resolution of the destination address at launch (handler line 156):
`row[placeholderMappings[emailTok] || 'email'] || row.email` with JS
falsiness, where both `undefined` and the empty string are falsy.  The
result is `none` when the row has neither value (a JS `undefined`
email). -/
def resolveEmail (mapping : Mapping) (row : Row) : Option String :=
  let col :=
    match mapping.lookup emailTok with
    | some c => if c = "" then "email" else c
    | none => "email"
  match row.lookup col with
  | some v => if v = "" then row.lookup "email" else some v
  | none => row.lookup "email"

/-- One recipient row as built by the handler (lines 153-159). -/
structure RecipientRow where
  campaign_id : String
  user_id : String
  email : Option String
  status : RStatus
  data : Row
deriving DecidableEq, Repr

/-- The handler's per-row recipient construction (lines 153-159). -/
def toRecipientRow (campaignId userId : String) (mapping : Mapping) (row : Row) :
    RecipientRow :=
  { campaign_id := campaignId
    user_id := userId
    email := resolveEmail mapping row
    status := .pending
    data := row }

/-- The payload of one mail-send call (dispatcher lines 239-244). -/
structure EmailData where
  toAddr : Option String
  subject : String
  html : String
  smtp : Option SmtpConfig
deriving DecidableEq, Repr

/-- One observable external effect of the dispatch loop, in order of
occurrence: a mail-send invocation, a recipient status write, the
fixed inter-message delay, a periodic aggregate checkpoint write, or
the final campaign write (status, counters, and whether the completion
timestamp is set). -/
inductive Event where
  | sendCall (e : EmailData)
  | recipientUpdate (idx : Nat) (st : RStatus)
  | delay (ms : Nat)
  | checkpoint (sentCount failedCount : Nat)
  | finalUpdate (status : CStatus) (sentCount failedCount : Nat) (completedAtSet : Bool)
deriving DecidableEq, Repr

def isSendCall : Event → Bool
  | .sendCall _ => true
  | _ => false

def isRecipientUpdate : Event → Bool
  | .recipientUpdate _ _ => true
  | _ => false

def isDelay : Event → Bool
  | .delay _ => true
  | _ => false

def isCheckpoint : Event → Bool
  | .checkpoint _ _ => true
  | _ => false

/-- The external mail service, abstracted: the outcome of the n-th
send call of the run (`supabase.functions.invoke(send-email, ...)`),
either success or an error message. -/
abbrev SendFun := Nat → EmailData → Except String Unit

/-- Running state of one dispatch invocation: the two local counters
and the trace of emitted effects. -/
structure RunState where
  sent : Nat
  failed : Nat
  events : List Event
deriving DecidableEq, Repr

/-- The email payload built for one recipient (lines 227-244). -/
def emailFor (template : Template) (mapping : Mapping) (smtp : Option SmtpConfig)
    (r : RecipientRow) : EmailData :=
  let p := render template mapping r.data
  { toAddr := r.email, subject := p.1, html := p.2, smtp := smtp }

/-- One iteration of the dispatch loop (lines 225-294) on the indexed
recipient `ir`: render and send; on success write the recipient `sent`
and apply the fixed 1000 ms delay, on failure write the recipient
`failed` with the error's message (no delay); then, when the combined
attempt count is a multiple of 10, write an aggregate checkpoint. -/
def dispatchStep (template : Template) (mapping : Mapping) (smtp : Option SmtpConfig)
    (send : SendFun) (st : RunState) (ir : Nat × RecipientRow) : RunState :=
  let e := emailFor template mapping smtp ir.2
  let st' :=
    match send ir.1 e with
    | .ok _ =>
      { sent := st.sent + 1
        failed := st.failed
        events := st.events ++ [.sendCall e, .recipientUpdate ir.1 .sent, .delay 1000] }
    | .error msg =>
      { sent := st.sent
        failed := st.failed + 1
        events := st.events ++ [.sendCall e, .recipientUpdate ir.1 (.failed msg)] }
  if (st'.sent + st'.failed) % 10 = 0 then
    { st' with events := st'.events ++ [.checkpoint st'.sent st'.failed] }
  else st'

/-- The final campaign write (lines 296-306): status `completed` when
every recipient was attempted, else `paused`; the completion timestamp
is set exactly when the status is `completed`. -/
def finalWrite (sentCount failedCount total : Nat) : Event :=
  let isCompleted : Bool := sentCount + failedCount == total
  .finalUpdate (if isCompleted then .completed else .paused)
    sentCount failedCount isCompleted

/-- The detached dispatch run (lines 212-309): fold the loop over the
recipients in input order with both counters at zero, then append the
final campaign write.  The `supabase` handle and campaign id of the
source add nothing to a single-campaign trace and are omitted. -/
def sendEmailsInBackground (send : SendFun) (template : Template)
    (recipients : List RecipientRow) (mapping : Mapping)
    (smtp : Option SmtpConfig) : RunState :=
  let st := recipients.enum.foldl (dispatchStep template mapping smtp send) ⟨0, 0, []⟩
  { st with events := st.events ++ [finalWrite st.sent st.failed recipients.length] }

/-- The loop state after the first `k` iterations (no final write):
the "point during the run" needed to state the running invariants. -/
def partialRun (send : SendFun) (template : Template)
    (recipients : List RecipientRow) (mapping : Mapping)
    (smtp : Option SmtpConfig) (k : Nat) : RunState :=
  (recipients.enum.take k).foldl (dispatchStep template mapping smtp send) ⟨0, 0, []⟩

/-- The campaign activation write issued by the handler
(lines 171-179). -/
structure CampaignActivation where
  status : CStatus
  total_recipients : Nat
  sent_count : Nat
  failed_count : Nat
deriving DecidableEq, Repr

/-- The launch payload (`CampaignEmailRequest`), with the bearer token
already stripped from the authorization header; `authToken = none`
models a missing header.  `smtpConfig` is optional because the JS
payload may omit it. -/
structure CampaignData where
  template : Template
  csvData : List Row
  placeholderMappings : Mapping
  smtpConfig : Option SmtpConfig
deriving Repr

structure LaunchRequest where
  authToken : Option String
  campaignId : String
  campaignData : CampaignData
deriving Repr

/-- What a launch attempt produces: the HTTP status and error body of
the response, and - when reached - the inserted recipient rows, the
campaign activation write, and the trace of the detached run.  Store
writes themselves succeed in this model (the claims under study concern
validation and dispatch logic, not store failures). -/
structure HandlerOutcome where
  httpStatus : Nat
  errorMsg : Option String
  insertedRecipients : Option (List RecipientRow)
  campaignUpdate : Option CampaignActivation
  run : Option RunState
deriving Repr

/-- The launch handler (lines 119-210): reject a missing/empty token,
reject a token the auth service does not recognise (`getUser`);
otherwise build and insert one recipient row per CSV row, write the
campaign activation (status `active`, `total_recipients`, zeroed
counters), start the detached run, and answer 200. -/
def handler (getUser : String → Option String) (send : SendFun)
    (req : LaunchRequest) : HandlerOutcome :=
  match req.authToken with
  | none => ⟨500, some "Authorization token required", none, none, none⟩
  | some tk =>
    if tk = "" then ⟨500, some "Authorization token required", none, none, none⟩
    else
      match getUser tk with
      | none => ⟨500, some "Invalid authorization token", none, none, none⟩
      | some uid =>
        let recips := req.campaignData.csvData.map
          (toRecipientRow req.campaignId uid req.campaignData.placeholderMappings)
        let activation : CampaignActivation :=
          ⟨.active, req.campaignData.csvData.length, 0, 0⟩
        let run := sendEmailsInBackground send req.campaignData.template recips
          req.campaignData.placeholderMappings req.campaignData.smtpConfig
        ⟨200, none, some recips, some activation, some run⟩

/-- The recipient status write the loop issues for the indexed
recipient `ir`, as a function of that recipient's own send outcome
alone: `sent` on success, `failed` with the error's message on
failure. -/
def expectedUpdate (template : Template) (mapping : Mapping) (smtp : Option SmtpConfig)
    (send : SendFun) (ir : Nat × RecipientRow) : Event :=
  match send ir.1 (emailFor template mapping smtp ir.2) with
  | .ok _ => .recipientUpdate ir.1 .sent
  | .error msg => .recipientUpdate ir.1 (.failed msg)

/-- JS truthiness of a string-or-undefined value: `undefined` and the
empty string are falsy. -/
def truthyStr : Option String → Bool
  | some s => s != ""
  | none => false

/-- Formalisation of claim C10 exactly as worded: the destination email
is taken from the CSV column that the email token is mapped to WHEN
SUCH A MAPPING ENTRY EXISTS (with no condition on the entry's value),
otherwise from the row's `email` field; if the chosen column has no
value (empty or absent) in the row, the row's `email` field is the
fallback. -/
def resolveEmailClaim (mapping : Mapping) (row : Row) : Option String :=
  let col :=
    match mapping.lookup emailTok with
    | some c => c
    | none => "email"
  if truthyStr (row.lookup col) then row.lookup col else row.lookup "email"

/-- The claim's wording amended minimally: the mapped column is used
only when the mapping entry exists AND is a nonempty column name;
otherwise the `email` column is chosen.  The fallback clause is
unchanged. -/
def resolveEmailClaimAmended (mapping : Mapping) (row : Row) : Option String :=
  let col :=
    if truthyStr (mapping.lookup emailTok) then
      (mapping.lookup emailTok).getD "email"
    else "email"
  if truthyStr (row.lookup col) then row.lookup col else row.lookup "email"

/-! ## Lemmas about literal replacement -/

theorem expandDollar_nil (m b a : List Char) : expandDollar m b a [] = [] := rfl

theorem expandDollar_cons2 (m b a : List Char) (c d : Char) (rest : List Char) :
    expandDollar m b a (c :: d :: rest) =
      if c = Char.ofNat 36 then
        if d = Char.ofNat 36 then d :: expandDollar m b a rest
        else if d = Char.ofNat 38 then m ++ expandDollar m b a rest
        else if d = Char.ofNat 96 then b ++ expandDollar m b a rest
        else if d = Char.ofNat 39 then a ++ expandDollar m b a rest
        else c :: d :: expandDollar m b a rest
      else c :: expandDollar m b a (d :: rest) := rfl

theorem expandDollar_of_no_dollar (m b a : List Char) :
    ∀ (rep : List Char), Char.ofNat 36 ∉ rep → expandDollar m b a rep = rep := by
  intro rep
  induction rep with
  | nil => intro _; rfl
  | cons c rest ih =>
    intro h
    have hc : c ≠ Char.ofNat 36 := fun hc => h (hc ▸ List.mem_cons_self c rest)
    have hrest : Char.ofNat 36 ∉ rest := fun hr => h (List.mem_cons_of_mem c hr)
    cases rest with
    | nil => rfl
    | cons d rest2 =>
      rw [expandDollar_cons2, if_neg hc, ih hrest]

theorem replTR_of_not_occurs (pat rep : List Char) :
    ∀ (fuel : Nat) (pre l : List Char), occursIn pat l = false → l.length ≤ fuel →
      replTR pat rep pre l fuel = l := by
  intro fuel
  induction fuel with
  | zero =>
    intro pre l _ hlen
    have : l = [] := List.eq_nil_of_length_eq_zero (Nat.le_zero.mp hlen)
    subst this; rfl
  | succ fuel ih =>
    intro pre l hocc hlen
    cases l with
    | nil => rfl
    | cons c cs =>
      have h2 : pat.isPrefixOf (c :: cs) = false ∧ occursIn pat cs = false := by
        simpa [occursIn] using hocc
      simp only [replTR, h2.1, Bool.false_eq_true, if_false]
      rw [ih (pre ++ [c]) cs h2.2 (Nat.le_of_succ_le_succ hlen)]

theorem replTR_nil_rep_length_le (pat : List Char) :
    ∀ (fuel : Nat) (pre l : List Char), (replTR pat [] pre l fuel).length ≤ l.length := by
  intro fuel
  induction fuel with
  | zero => intro pre l; cases l <;> simp [replTR]
  | succ fuel ih =>
    intro pre l
    cases l with
    | nil => simp [replTR]
    | cons c cs =>
      by_cases hpre : pat.isPrefixOf (c :: cs)
      · simp only [replTR, hpre, if_true, expandDollar_nil, List.nil_append]
        calc (replTR pat [] (pre ++ pat) (cs.drop (pat.length - 1)) fuel).length
          _ ≤ (cs.drop (pat.length - 1)).length := ih _ _
          _ ≤ cs.length := by simp [List.length_drop]
          _ ≤ (c :: cs).length := by simp
      · simp only [replTR, hpre, Bool.false_eq_true, if_false, List.length_cons]
        exact Nat.succ_le_succ (ih (pre ++ [c]) cs)

theorem replTR_nil_rep_length_lt (pat : List Char) (hp : pat ≠ []) :
    ∀ (fuel : Nat) (pre l : List Char), occursIn pat l = true → l.length ≤ fuel →
      (replTR pat [] pre l fuel).length < l.length := by
  intro fuel
  induction fuel with
  | zero =>
    intro pre l hocc hlen
    have : l = [] := List.eq_nil_of_length_eq_zero (Nat.le_zero.mp hlen)
    subst this
    simp [occursIn, List.isEmpty_iff, hp] at hocc
  | succ fuel ih =>
    intro pre l hocc hlen
    cases l with
    | nil => simp [occursIn, List.isEmpty_iff, hp] at hocc
    | cons c cs =>
      by_cases hpre : pat.isPrefixOf (c :: cs)
      · simp only [replTR, hpre, if_true, expandDollar_nil, List.nil_append]
        calc (replTR pat [] (pre ++ pat) (cs.drop (pat.length - 1)) fuel).length
          _ ≤ (cs.drop (pat.length - 1)).length := replTR_nil_rep_length_le pat fuel _ _
          _ ≤ cs.length := by simp [List.length_drop]
          _ < (c :: cs).length := by simp
      · have hocc' : occursIn pat cs = true := by
          simp [occursIn, hpre] at hocc
          exact hocc
        simp only [replTR, hpre, Bool.false_eq_true, if_false, List.length_cons]
        exact Nat.succ_lt_succ (ih (pre ++ [c]) cs hocc' (Nat.le_of_succ_le_succ hlen))

theorem data_ne_nil_of_ne_empty (s : String) (h : s ≠ "") : s.data ≠ [] := by
  intro hd
  apply h
  obtain ⟨d⟩ := s
  simp only [String.data] at hd  -- hd : d = []
  subst hd
  rfl

theorem replaceAll_of_not_occursS (s pat rep : String) (h : occursS pat s = false) :
    replaceAll s pat rep = s := by
  rw [replaceAll]
  by_cases he : pat.data.isEmpty
  · simp [he]
  · simp only [he, Bool.false_eq_true, if_false]
    rw [replTR_of_not_occurs pat.data rep.data s.data.length [] s.data h (Nat.le_refl _)]

theorem length_replaceAll_empty_lt (s pat : String) (hp : pat ≠ "")
    (h : occursS pat s = true) : (replaceAll s pat "").length < s.length := by
  have hd : pat.data ≠ [] := data_ne_nil_of_ne_empty pat hp
  have he : pat.data.isEmpty = false := by
    cases hx : pat.data with
    | nil => exact absurd hx hd
    | cons a as => simp [List.isEmpty]
  rw [replaceAll]
  simp only [he, Bool.false_eq_true, if_false]
  show (replTR pat.data "".data [] s.data s.data.length).length < s.length
  have : ("".data : List Char) = [] := rfl
  rw [this]
  exact replTR_nil_rep_length_lt pat.data hd s.data.length [] s.data h (Nat.le_refl _)

theorem occursIn_append_left (p : List Char) :
    ∀ (w t : List Char), occursIn p t = true → occursIn p (w ++ t) = true := by
  intro w
  induction w with
  | nil => intro t h; simpa using h
  | cons a w' ih =>
    intro t h
    simp only [List.cons_append, occursIn, Bool.or_eq_true]
    exact Or.inr (ih t h)

theorem noInnerMatch_spec {p q : List Char} (h : noInnerMatch p q = true) :
    ∀ j, j < p.length →
      q.isPrefixOf (p.drop j) = false ∧ (p.drop j).isPrefixOf q = false := by
  intro j hj
  have h2 := List.all_eq_true.mp h j (List.mem_range.mpr hj)
  simp only [Bool.and_eq_true, Bool.not_eq_true'] at h2
  exact h2

/-- Blocking clauses shift to the tail: if `q` can begin no match at
any offset of `rc :: r`, it can begin none at any offset of `r`. -/
theorem blockShift (q : List Char) (rc : Char) (r : List Char)
    (h : ∀ j, j < (rc :: r).length →
      q.isPrefixOf ((rc :: r).drop j) = false ∧ ((rc :: r).drop j).isPrefixOf q = false) :
    ∀ j, j < r.length →
      q.isPrefixOf (r.drop j) = false ∧ (r.drop j).isPrefixOf q = false := by
  intro j hj
  have := h (j + 1) (by simp; omega)
  simpa using this

theorem prefix_comparable {a b l : List Char} (ha : a.isPrefixOf l = true)
    (hb : b.isPrefixOf l = true) :
    a.isPrefixOf b = true ∨ b.isPrefixOf a = true := by
  have ha' : a <+: l := List.isPrefixOf_iff_prefix.mp ha
  have hb' : b <+: l := List.isPrefixOf_iff_prefix.mp hb
  rcases List.prefix_or_prefix_of_prefix ha' hb' with h | h
  · exact Or.inl (List.isPrefixOf_iff_prefix.mpr h)
  · exact Or.inr (List.isPrefixOf_iff_prefix.mpr h)

/-- A token `r` that begins the scanned text, and inside whose
occurrences the pattern `q` can begin no match, still begins the
scan's output: the scan copies its characters one by one. -/
theorem replTR_keeps_prefix (q v : List Char) :
    ∀ (fuel : Nat) (r pre l : List Char),
      (∀ j, j < r.length →
        q.isPrefixOf (r.drop j) = false ∧ (r.drop j).isPrefixOf q = false) →
      r.isPrefixOf l = true → l.length ≤ fuel →
      r.isPrefixOf (replTR q v pre l fuel) = true := by
  intro fuel
  induction fuel with
  | zero =>
    intro r pre l _ hpre hlen
    have hl : l = [] := List.eq_nil_of_length_eq_zero (Nat.le_zero.mp hlen)
    subst hl
    exact hpre
  | succ fuel ih =>
    intro r pre l hgood hpre hlen
    cases r with
    | nil => simp [List.isPrefixOf]
    | cons rc r' =>
      cases l with
      | nil => simp [List.isPrefixOf] at hpre
      | cons c cs =>
        have hq : q.isPrefixOf (c :: cs) = false := by
          by_cases hq' : q.isPrefixOf (c :: cs) = true
          · exfalso
            rcases prefix_comparable hq' hpre with h | h
            · have hf := (hgood 0 (by simp)).1
              simp only [List.drop_zero] at hf
              exact absurd h (by simp [hf])
            · have hf := (hgood 0 (by simp)).2
              simp only [List.drop_zero] at hf
              exact absurd h (by simp [hf])
          · revert hq'; cases q.isPrefixOf (c :: cs) <;> simp
        simp only [replTR, hq, Bool.false_eq_true, if_false]
        have hrc : rc = c ∧ r'.isPrefixOf cs = true := by
          simpa [List.isPrefixOf, Bool.and_eq_true] using hpre
        have hr' := ih r' (pre ++ [c]) cs (blockShift q rc r' hgood) hrc.2
          (Nat.le_of_succ_le_succ hlen)
        simp [List.isPrefixOf, hrc.1, hr']

/-- Skipping a matched region: if `qs` (the rest of a match) begins
the text and the pattern `p` can begin no match at any offset inside
it, then any occurrence of `p` in the text survives dropping the
matched region. -/
theorem occursIn_drop_of_match (p : List Char) :
    ∀ (qs w : List Char),
      (∀ j, j < qs.length →
        p.isPrefixOf (qs.drop j) = false ∧ (qs.drop j).isPrefixOf p = false) →
      qs.isPrefixOf w = true → occursIn p w = true →
      occursIn p (w.drop qs.length) = true := by
  intro qs
  induction qs with
  | nil => intro w _ _ h; simpa using h
  | cons qc qs' ih =>
    intro w hgood hpre hocc
    cases w with
    | nil => simp [List.isPrefixOf] at hpre
    | cons c cs =>
      have hqc : qc = c ∧ qs'.isPrefixOf cs = true := by
        simpa [List.isPrefixOf, Bool.and_eq_true] using hpre
      have hnp : p.isPrefixOf (c :: cs) = false := by
        by_cases hp' : p.isPrefixOf (c :: cs) = true
        · exfalso
          rcases prefix_comparable hp' hpre with h | h
          · have hf := (hgood 0 (by simp)).1
            simp only [List.drop_zero] at hf
            exact absurd h (by simp [hf])
          · have hf := (hgood 0 (by simp)).2
            simp only [List.drop_zero] at hf
            exact absurd h (by simp [hf])
        · revert hp'; cases p.isPrefixOf (c :: cs) <;> simp
      have hocc' : occursIn p cs = true := by
        simpa [occursIn, hnp] using hocc
      simp only [List.length_cons, List.drop_succ_cons]
      exact ih cs (blockShift p qc qs' hgood) hqc.2 hocc'

/-- Core preservation: when the tokens `p` and `q` are mutually
independent (neither can begin a match inside an occurrence of the
other), a scan replacing `q` keeps every string that contains `p`
containing `p`: matches of `q` are disjoint from occurrences of `p`,
so some occurrence of `p` is copied untouched. -/
theorem replTR_keeps_occurs (p q v : List Char) (hp : p ≠ []) (hq : q ≠ [])
    (hgp : ∀ j, j < p.length →
      q.isPrefixOf (p.drop j) = false ∧ (p.drop j).isPrefixOf q = false)
    (hgq : ∀ i, i < q.length →
      p.isPrefixOf (q.drop i) = false ∧ (q.drop i).isPrefixOf p = false) :
    ∀ (fuel : Nat) (pre l : List Char), l.length ≤ fuel → occursIn p l = true →
      occursIn p (replTR q v pre l fuel) = true := by
  intro fuel
  induction fuel with
  | zero =>
    intro pre l hlen hocc
    have hl : l = [] := List.eq_nil_of_length_eq_zero (Nat.le_zero.mp hlen)
    subst hl
    simp [occursIn, List.isEmpty_iff, hp] at hocc
  | succ fuel ih =>
    intro pre l hlen hocc
    cases l with
    | nil => simp [occursIn, List.isEmpty_iff, hp] at hocc
    | cons c cs =>
      have hq0 : 0 < q.length := List.length_pos.mpr hq
      have hp0 : 0 < p.length := List.length_pos.mpr hp
      by_cases hqm : q.isPrefixOf (c :: cs) = true
      · have hnp : p.isPrefixOf (c :: cs) = false := by
          by_cases hp' : p.isPrefixOf (c :: cs) = true
          · exfalso
            rcases prefix_comparable hp' hqm with h | h
            · have hf := (hgq 0 hq0).1
              simp only [List.drop_zero] at hf
              exact absurd h (by simp [hf])
            · have hf := (hgp 0 hp0).1
              simp only [List.drop_zero] at hf
              exact absurd h (by simp [hf])
          · revert hp'; cases p.isPrefixOf (c :: cs) <;> simp
        have hocc' : occursIn p cs = true := by
          simpa [occursIn, hnp] using hocc
        have hqs : (q.drop 1).isPrefixOf cs = true := by
          cases q with
          | nil => exact absurd rfl hq
          | cons qc q' =>
            have := (by simpa [List.isPrefixOf, Bool.and_eq_true] using hqm :
              qc = c ∧ q'.isPrefixOf cs = true)
            simpa using this.2
        have hgq' : ∀ j, j < (q.drop 1).length →
            p.isPrefixOf ((q.drop 1).drop j) = false ∧
            ((q.drop 1).drop j).isPrefixOf p = false := by
          intro j hj
          rw [List.drop_drop]
          apply hgq
          simp at hj
          omega
        have hskip := occursIn_drop_of_match p (q.drop 1) cs hgq' hqs hocc'
        have hlen' : (q.drop 1).length = q.length - 1 := by simp
        rw [hlen'] at hskip
        simp only [replTR, hqm, if_true]
        apply occursIn_append_left
        apply ih
        · calc (cs.drop (q.length - 1)).length ≤ cs.length := by simp [List.length_drop]
            _ ≤ fuel := Nat.le_of_succ_le_succ hlen
        · exact hskip
      · have hq' : q.isPrefixOf (c :: cs) = false := by
          revert hqm; cases q.isPrefixOf (c :: cs) <;> simp
        simp only [replTR, hq', Bool.false_eq_true, if_false]
        have hsplit : p.isPrefixOf (c :: cs) = true ∨ occursIn p cs = true := by
          simpa [occursIn, Bool.or_eq_true] using hocc
        rcases hsplit with hph | hocc'
        · cases p with
          | nil => exact absurd rfl hp
          | cons pc p' =>
            have hpc : pc = c ∧ p'.isPrefixOf cs = true := by
              simpa [List.isPrefixOf, Bool.and_eq_true] using hph
            have hpp := replTR_keeps_prefix q v fuel p' (pre ++ [c]) cs
              (blockShift q pc p' hgp) hpc.2 (Nat.le_of_succ_le_succ hlen)
            simp [occursIn, List.isPrefixOf, hpc.1, hpp]
        · have := ih (pre ++ [c]) cs (Nat.le_of_succ_le_succ hlen) hocc'
          simp [occursIn, this]

/-- One replacement pass for a token independent of `p` keeps `p`
occurring. -/
theorem replaceAll_keeps_occurs (s p q v : String) (hp : p ≠ "")
    (hind : independentTok p q = true) (h : occursS p s = true) :
    occursS p (replaceAll s q v) = true := by
  rw [replaceAll]
  by_cases hq0 : q.data.isEmpty
  · simpa [hq0] using h
  · simp only [hq0, Bool.false_eq_true, if_false]
    have hind2 := (Bool.and_eq_true _ _).mp hind
    have hgp := noInnerMatch_spec hind2.1
    have hgq := noInnerMatch_spec hind2.2
    have hp' : p.data ≠ [] := data_ne_nil_of_ne_empty p hp
    have hq' : q.data ≠ [] := by
      cases hx : q.data with
      | nil => rw [hx] at hq0; exact absurd rfl hq0
      | cons a as => simp
    exact replTR_keeps_occurs p.data q.data v.data hp' hq' hgp hgq
      s.data.length [] s.data (Nat.le_refl _) h

/-- Pass-through under substitution: a nonempty token independent of
every mapping key (in particular any unmapped well-formed placeholder
among distinct well-formed tokens) still occurs in the rendered
subject and body, even while the mapped tokens are substituted. -/
theorem render_keeps_unmapped :
    ∀ (m : Mapping) (t : Template) (d : Row) (p : String),
      p ≠ "" →
      (∀ e ∈ m, independentTok p e.1 = true) →
      (occursS p t.subject = true → occursS p (render t m d).1 = true) ∧
      (occursS p t.body = true → occursS p (render t m d).2 = true) := by
  intro m
  induction m with
  | nil => intro t d p _ _; exact ⟨fun h => h, fun h => h⟩
  | cons e m' ih =>
    intro t d p hp hind
    have hcons : render t (e :: m') d =
        render ⟨replaceAll t.subject e.1 (valueOf d e.2),
                replaceAll t.body e.1 (valueOf d e.2)⟩ m' d := rfl
    rw [hcons]
    have hke := hind e (List.mem_cons_self e m')
    have hrest : ∀ e' ∈ m', independentTok p e'.1 = true :=
      fun e' he' => hind e' (List.mem_cons_of_mem e he')
    have hih := ih ⟨replaceAll t.subject e.1 (valueOf d e.2),
      replaceAll t.body e.1 (valueOf d e.2)⟩ d p hp hrest
    exact ⟨fun h => hih.1 (replaceAll_keeps_occurs _ _ _ _ hp hke h),
           fun h => hih.2 (replaceAll_keeps_occurs _ _ _ _ hp hke h)⟩

theorem render_of_keys_absent (t : Template) (mapping : Mapping) (d : Row)
    (h : ∀ e ∈ mapping, occursS e.1 t.subject = false ∧ occursS e.1 t.body = false) :
    render t mapping d = (t.subject, t.body) := by
  induction mapping with
  | nil => rfl
  | cons e m ih =>
    have hstep :
        (replaceAll t.subject e.1 (valueOf d e.2),
         replaceAll t.body e.1 (valueOf d e.2)) = (t.subject, t.body) := by
      rw [replaceAll_of_not_occursS _ _ _ (h e (List.mem_cons_self e m)).1,
          replaceAll_of_not_occursS _ _ _ (h e (List.mem_cons_self e m)).2]
    have hm : ∀ e' ∈ m, occursS e'.1 t.subject = false ∧ occursS e'.1 t.body = false :=
      fun e' he' => h e' (List.mem_cons_of_mem e he')
    have hcons : render t (e :: m) d = render t m d := by
      rw [render, render, List.foldl_cons]
      congr 1
    rw [hcons]
    exact ih hm

/-! ## Lemmas about the dispatch loop -/

theorem dispatchStep_of_ok (template : Template) (mapping : Mapping)
    (smtp : Option SmtpConfig) (send : SendFun) (st : RunState)
    (ir : Nat × RecipientRow) (u : Unit)
    (h : send ir.1 (emailFor template mapping smtp ir.2) = Except.ok u) :
    dispatchStep template mapping smtp send st ir =
      ⟨st.sent + 1, st.failed,
       st.events ++
         [.sendCall (emailFor template mapping smtp ir.2),
          .recipientUpdate ir.1 .sent, .delay 1000] ++
         (if (st.sent + 1 + st.failed) % 10 = 0
          then [.checkpoint (st.sent + 1) st.failed] else [])⟩ := by
  simp only [dispatchStep, h]
  split <;> simp [List.append_assoc]

theorem dispatchStep_of_error (template : Template) (mapping : Mapping)
    (smtp : Option SmtpConfig) (send : SendFun) (st : RunState)
    (ir : Nat × RecipientRow) (msg : String)
    (h : send ir.1 (emailFor template mapping smtp ir.2) = Except.error msg) :
    dispatchStep template mapping smtp send st ir =
      ⟨st.sent, st.failed + 1,
       st.events ++
         [.sendCall (emailFor template mapping smtp ir.2),
          .recipientUpdate ir.1 (.failed msg)] ++
         (if (st.sent + (st.failed + 1)) % 10 = 0
          then [.checkpoint st.sent (st.failed + 1)] else [])⟩ := by
  simp only [dispatchStep, h]
  split <;> simp [List.append_assoc]

theorem dispatchStep_sent_failed (template : Template) (mapping : Mapping)
    (smtp : Option SmtpConfig) (send : SendFun) (st : RunState)
    (ir : Nat × RecipientRow) :
    (dispatchStep template mapping smtp send st ir).sent +
      (dispatchStep template mapping smtp send st ir).failed =
    st.sent + st.failed + 1 := by
  cases hs : send ir.1 (emailFor template mapping smtp ir.2) with
  | ok u =>
    rw [dispatchStep_of_ok template mapping smtp send st ir u hs]
    show st.sent + 1 + st.failed = st.sent + st.failed + 1
    omega
  | error msg =>
    rw [dispatchStep_of_error template mapping smtp send st ir msg hs]
    show st.sent + (st.failed + 1) = st.sent + st.failed + 1
    omega

/-- Each loop iteration increments exactly one of the two counters:
after folding over `l`, the combined counter grew by `l.length`. -/
theorem foldl_step_sum (template : Template) (mapping : Mapping)
    (smtp : Option SmtpConfig) (send : SendFun) :
    ∀ (l : List (Nat × RecipientRow)) (st : RunState),
      (l.foldl (dispatchStep template mapping smtp send) st).sent +
        (l.foldl (dispatchStep template mapping smtp send) st).failed =
      st.sent + st.failed + l.length := by
  intro l
  induction l with
  | nil => intro st; simp
  | cons x xs ih =>
    intro st
    rw [List.foldl_cons, ih]
    rw [dispatchStep_sent_failed]
    simp [Nat.add_assoc, Nat.add_comm]
    omega

theorem dispatchStep_countP_checkpoint (template : Template) (mapping : Mapping)
    (smtp : Option SmtpConfig) (send : SendFun) (st : RunState)
    (ir : Nat × RecipientRow) :
    (dispatchStep template mapping smtp send st ir).events.countP isCheckpoint =
      st.events.countP isCheckpoint +
        (if (st.sent + st.failed + 1) % 10 = 0 then 1 else 0) := by
  cases hs : send ir.1 (emailFor template mapping smtp ir.2) with
  | ok u =>
    rw [dispatchStep_of_ok template mapping smtp send st ir u hs]
    have hc : st.sent + 1 + st.failed = st.sent + st.failed + 1 := by omega
    rw [hc]
    by_cases h10 : (st.sent + st.failed + 1) % 10 = 0 <;>
      simp [h10, List.countP_append, List.countP_cons, isCheckpoint]
  | error msg =>
    rw [dispatchStep_of_error template mapping smtp send st ir msg hs]
    have hc : st.sent + (st.failed + 1) = st.sent + st.failed + 1 := by omega
    rw [hc]
    by_cases h10 : (st.sent + st.failed + 1) % 10 = 0 <;>
      simp [h10, List.countP_append, List.countP_cons, isCheckpoint]

/-- Checkpoint writes happen exactly at every 10th combined attempt:
folding over `l` moves the checkpoint count from `(S)/10` to
`(S + l.length)/10` where `S` is the starting combined counter. -/
theorem foldl_step_checkpoints (template : Template) (mapping : Mapping)
    (smtp : Option SmtpConfig) (send : SendFun) :
    ∀ (l : List (Nat × RecipientRow)) (st : RunState),
      (l.foldl (dispatchStep template mapping smtp send) st).events.countP isCheckpoint +
        (st.sent + st.failed) / 10 =
      st.events.countP isCheckpoint + (st.sent + st.failed + l.length) / 10 := by
  intro l
  induction l with
  | nil => intro st; simp
  | cons x xs ih =>
    intro st
    rw [List.foldl_cons]
    have hih := ih (dispatchStep template mapping smtp send st x)
    have hcnt := dispatchStep_countP_checkpoint template mapping smtp send st x
    have hsum := dispatchStep_sent_failed template mapping smtp send st x
    rw [hsum, hcnt] at hih
    simp only [List.length_cons]
    by_cases h10 : (st.sent + st.failed + 1) % 10 = 0
    · rw [if_pos h10] at hih; omega
    · rw [if_neg h10] at hih; omega

theorem dispatchStep_countP_delay (template : Template) (mapping : Mapping)
    (smtp : Option SmtpConfig) (send : SendFun) (st : RunState)
    (ir : Nat × RecipientRow) :
    (dispatchStep template mapping smtp send st ir).events.countP isDelay + st.sent =
      st.events.countP isDelay + (dispatchStep template mapping smtp send st ir).sent := by
  cases hs : send ir.1 (emailFor template mapping smtp ir.2) with
  | ok u =>
    rw [dispatchStep_of_ok template mapping smtp send st ir u hs]
    by_cases h10 : (st.sent + 1 + st.failed) % 10 = 0 <;>
      simp [h10, List.countP_append, List.countP_cons, isDelay] <;> omega
  | error msg =>
    rw [dispatchStep_of_error template mapping smtp send st ir msg hs]
    by_cases h10 : (st.sent + (st.failed + 1)) % 10 = 0 <;>
      simp [h10, List.countP_append, List.countP_cons, isDelay]

/-- The inter-message delay fires exactly once per successful attempt:
the delay count grows in lockstep with the sent counter. -/
theorem foldl_step_delays (template : Template) (mapping : Mapping)
    (smtp : Option SmtpConfig) (send : SendFun) :
    ∀ (l : List (Nat × RecipientRow)) (st : RunState),
      (l.foldl (dispatchStep template mapping smtp send) st).events.countP isDelay + st.sent =
      st.events.countP isDelay +
        (l.foldl (dispatchStep template mapping smtp send) st).sent := by
  intro l
  induction l with
  | nil => intro st; simp
  | cons x xs ih =>
    intro st
    rw [List.foldl_cons]
    have hih := ih (dispatchStep template mapping smtp send st x)
    have hstep := dispatchStep_countP_delay template mapping smtp send st x
    omega

theorem dispatchStep_countP_sendCall (template : Template) (mapping : Mapping)
    (smtp : Option SmtpConfig) (send : SendFun) (st : RunState)
    (ir : Nat × RecipientRow) :
    (dispatchStep template mapping smtp send st ir).events.countP isSendCall =
      st.events.countP isSendCall + 1 := by
  cases hs : send ir.1 (emailFor template mapping smtp ir.2) with
  | ok u =>
    rw [dispatchStep_of_ok template mapping smtp send st ir u hs]
    by_cases h10 : (st.sent + 1 + st.failed) % 10 = 0 <;>
      simp [h10, List.countP_append, List.countP_cons, isSendCall]
  | error msg =>
    rw [dispatchStep_of_error template mapping smtp send st ir msg hs]
    by_cases h10 : (st.sent + (st.failed + 1)) % 10 = 0 <;>
      simp [h10, List.countP_append, List.countP_cons, isSendCall]

/-- One mail-send call is made per recipient, whatever the outcomes. -/
theorem foldl_step_sendCalls (template : Template) (mapping : Mapping)
    (smtp : Option SmtpConfig) (send : SendFun) :
    ∀ (l : List (Nat × RecipientRow)) (st : RunState),
      (l.foldl (dispatchStep template mapping smtp send) st).events.countP isSendCall =
      st.events.countP isSendCall + l.length := by
  intro l
  induction l with
  | nil => intro st; simp
  | cons x xs ih =>
    intro st
    rw [List.foldl_cons, ih, dispatchStep_countP_sendCall]
    simp only [List.length_cons]
    omega

theorem dispatchStep_filter_updates (template : Template) (mapping : Mapping)
    (smtp : Option SmtpConfig) (send : SendFun) (st : RunState)
    (ir : Nat × RecipientRow) :
    (dispatchStep template mapping smtp send st ir).events.filter isRecipientUpdate =
      st.events.filter isRecipientUpdate ++
        [expectedUpdate template mapping smtp send ir] := by
  cases hs : send ir.1 (emailFor template mapping smtp ir.2) with
  | ok u =>
    rw [dispatchStep_of_ok template mapping smtp send st ir u hs]
    by_cases h10 : (st.sent + 1 + st.failed) % 10 = 0 <;>
      simp [h10, List.filter_append, isRecipientUpdate, expectedUpdate, hs]
  | error msg =>
    rw [dispatchStep_of_error template mapping smtp send st ir msg hs]
    by_cases h10 : (st.sent + (st.failed + 1)) % 10 = 0 <;>
      simp [h10, List.filter_append, isRecipientUpdate, expectedUpdate, hs]

/-- The recipient status writes of a run are exactly one per processed
recipient, in input order, each a function of that recipient's own
send outcome alone. -/
theorem foldl_step_updates (template : Template) (mapping : Mapping)
    (smtp : Option SmtpConfig) (send : SendFun) :
    ∀ (l : List (Nat × RecipientRow)) (st : RunState),
      (l.foldl (dispatchStep template mapping smtp send) st).events.filter
          isRecipientUpdate =
      st.events.filter isRecipientUpdate ++
        l.map (expectedUpdate template mapping smtp send) := by
  intro l
  induction l with
  | nil => intro st; simp
  | cons x xs ih =>
    intro st
    rw [List.foldl_cons, ih, dispatchStep_filter_updates]
    simp [List.append_assoc]

theorem dispatchStep_filter_sendCalls (template : Template) (mapping : Mapping)
    (smtp : Option SmtpConfig) (send : SendFun) (st : RunState)
    (ir : Nat × RecipientRow) :
    (dispatchStep template mapping smtp send st ir).events.filter isSendCall =
      st.events.filter isSendCall ++
        [Event.sendCall (emailFor template mapping smtp ir.2)] := by
  cases hs : send ir.1 (emailFor template mapping smtp ir.2) with
  | ok u =>
    rw [dispatchStep_of_ok template mapping smtp send st ir u hs]
    by_cases h10 : (st.sent + 1 + st.failed) % 10 = 0 <;>
      simp [h10, List.filter_append, isSendCall]
  | error msg =>
    rw [dispatchStep_of_error template mapping smtp send st ir msg hs]
    by_cases h10 : (st.sent + (st.failed + 1)) % 10 = 0 <;>
      simp [h10, List.filter_append, isSendCall]

/-- The mail-send calls of a run, in order: one per recipient, each
carrying the payload rendered for that recipient with the supplied
sender configuration. -/
theorem foldl_step_filter_sendCalls (template : Template) (mapping : Mapping)
    (smtp : Option SmtpConfig) (send : SendFun) :
    ∀ (l : List (Nat × RecipientRow)) (st : RunState),
      (l.foldl (dispatchStep template mapping smtp send) st).events.filter isSendCall =
      st.events.filter isSendCall ++
        l.map (fun ir => Event.sendCall (emailFor template mapping smtp ir.2)) := by
  intro l
  induction l with
  | nil => intro st; simp
  | cons x xs ih =>
    intro st
    rw [List.foldl_cons, ih, dispatchStep_filter_sendCalls]
    simp [List.append_assoc]

/-- When every send call fails, the sent counter never moves. -/
theorem foldl_step_allfail_sent (template : Template) (mapping : Mapping)
    (smtp : Option SmtpConfig) (msg : String) :
    ∀ (l : List (Nat × RecipientRow)) (st : RunState),
      (l.foldl (dispatchStep template mapping smtp (fun _ _ => Except.error msg)) st).sent =
      st.sent := by
  intro l
  induction l with
  | nil => intro st; simp
  | cons x xs ih =>
    intro st
    rw [List.foldl_cons, ih,
      dispatchStep_of_error template mapping smtp (fun _ _ => Except.error msg) st x msg rfl]

theorem finalWrite_not_update (a b c : Nat) :
    isRecipientUpdate (finalWrite a b c) = false := rfl

theorem finalWrite_not_sendCall (a b c : Nat) :
    isSendCall (finalWrite a b c) = false := rfl

theorem finalWrite_not_delay (a b c : Nat) :
    isDelay (finalWrite a b c) = false := rfl

theorem finalWrite_not_checkpoint (a b c : Nat) :
    isCheckpoint (finalWrite a b c) = false := rfl

theorem finalWrite_of_eq (s f t : Nat) (h : s + f = t) :
    finalWrite s f t = .finalUpdate .completed s f true := by
  simp [finalWrite, h]

theorem finalWrite_of_ne (s f t : Nat) (h : s + f ≠ t) :
    finalWrite s f t = .finalUpdate .paused s f false := by
  simp [finalWrite, h]

/-- The full run is the loop fold with zeroed counters followed by the
final campaign write. -/
theorem sendEmailsInBackground_eq (send : SendFun) (template : Template)
    (recipients : List RecipientRow) (mapping : Mapping) (smtp : Option SmtpConfig) :
    sendEmailsInBackground send template recipients mapping smtp =
      ⟨(recipients.enum.foldl (dispatchStep template mapping smtp send) ⟨0, 0, []⟩).sent,
       (recipients.enum.foldl (dispatchStep template mapping smtp send) ⟨0, 0, []⟩).failed,
       (recipients.enum.foldl (dispatchStep template mapping smtp send) ⟨0, 0, []⟩).events ++
         [finalWrite
           (recipients.enum.foldl (dispatchStep template mapping smtp send) ⟨0, 0, []⟩).sent
           (recipients.enum.foldl (dispatchStep template mapping smtp send) ⟨0, 0, []⟩).failed
           recipients.length]⟩ := rfl

/-! ## Claim C1 -/

/-- Claim C1, counterexample.  The claim says that when the recipient's
value for the mapped field is empty or absent, the placeholder token is
left verbatim in the output.  For template subject `Hi {{name}}`,
mapping `{{name}} -> firstName` and a recipient with no `firstName`
value, the code replaces the token with the empty string: the rendered
subject is `Hi `, not the verbatim `Hi {{name}}`. -/
theorem c1_counterexample :
    (render ⟨"Hi \x7b\x7bname\x7d\x7d", "Hi \x7b\x7bname\x7d\x7d"⟩
        [("\x7b\x7bname\x7d\x7d", "firstName")] []).1 = "Hi " ∧
    (render ⟨"Hi \x7b\x7bname\x7d\x7d", "Hi \x7b\x7bname\x7d\x7d"⟩
        [("\x7b\x7bname\x7d\x7d", "firstName")] []).1 ≠ "Hi \x7b\x7bname\x7d\x7d" := by
  decide

/-- Claim C1, amended.  (a) A placeholder with no mapping entry still
appears verbatim in the rendered subject and body wherever it
occurred, even while the mapped placeholders around it are
substituted; precisely, this holds for every nonempty token that is
independent of every mapping key (no key can begin a match overlapping
an occurrence of it - true of distinct well-formed double-braced
tokens, and an independent token is in particular unmapped).  (b) When
a placeholder HAS a mapping entry but the recipient's value for the
mapped field is empty or absent, the token is NOT left verbatim: each
occurrence is replaced by the empty string, strictly shortening the
text. -/
theorem c1_amended :
    (∀ (t : Template) (m : Mapping) (d : Row) (p : String),
      p ≠ "" →
      (∀ e ∈ m, independentTok p e.1 = true) →
      (occursS p t.subject = true → occursS p (render t m d).1 = true) ∧
      (occursS p t.body = true → occursS p (render t m d).2 = true)) ∧
    (∀ (s b p c : String) (d : Row),
      valueOf d c = "" → p ≠ "" → occursS p s = true →
      ((render ⟨s, b⟩ [(p, c)] d).1).length < s.length) := by
  constructor
  · intro t m d p hp hind
    exact render_keeps_unmapped m t d p hp hind
  · intro s b p c d hv hp hocc
    have h1 : (render ⟨s, b⟩ [(p, c)] d).1 = replaceAll s p (valueOf d c) := rfl
    rw [h1, hv]
    exact length_replaceAll_empty_lt s p hp hocc

/-- Witness for `c1_amended` at concrete inputs: rendering the
template whose subject holds a mapped `greet` token and the unmapped
`name` token substitutes the former and keeps the latter verbatim (the
theorem gives the pass-through, and the second conjunct computes the
full output); a mapped token with an empty recipient value is deleted,
shortening the subject. -/
theorem c1_amended_witness :
    occursS "\x7b\x7bname\x7d\x7d"
      (render ⟨"\x7b\x7bgreet\x7d\x7d \x7b\x7bname\x7d\x7d", "\x7b\x7bname\x7d\x7d"⟩
        [("\x7b\x7bgreet\x7d\x7d", "g")] [("g", "Hello")]).1 = true ∧
    render ⟨"\x7b\x7bgreet\x7d\x7d \x7b\x7bname\x7d\x7d", "\x7b\x7bname\x7d\x7d"⟩
        [("\x7b\x7bgreet\x7d\x7d", "g")] [("g", "Hello")] =
      ("Hello \x7b\x7bname\x7d\x7d", "\x7b\x7bname\x7d\x7d") ∧
    ((render ⟨"Hi \x7b\x7bname\x7d\x7d", "y"⟩
        [("\x7b\x7bname\x7d\x7d", "firstName")] [("firstName", "")]).1).length <
      ("Hi \x7b\x7bname\x7d\x7d" : String).length := by
  refine ⟨?_, by decide, ?_⟩
  · exact (c1_amended.1
      ⟨"\x7b\x7bgreet\x7d\x7d \x7b\x7bname\x7d\x7d", "\x7b\x7bname\x7d\x7d"⟩
      [("\x7b\x7bgreet\x7d\x7d", "g")] [("g", "Hello")] "\x7b\x7bname\x7d\x7d"
      (by decide) (by decide)).1 (by decide)
  · exact c1_amended.2 "Hi \x7b\x7bname\x7d\x7d" "y" "\x7b\x7bname\x7d\x7d" "firstName"
      [("firstName", "")] (by decide) (by decide) (by decide)

/-! ## Claim C2 -/

/-- Claim C2, counterexample.  The claim says no recursive substitution
occurs: a replacement value that itself contains another placeholder
token is not further substituted.  With mapping entries
`{{a}} -> ca, {{b}} -> cb` (in that order), recipient values
`ca = {{b}}`, `cb = X`, and subject `{{a}}`, the first pass rewrites
the subject to `{{b}}` and the second pass then substitutes it: the
rendered subject is `X`, not `{{b}}`. -/
theorem c2_counterexample :
    (render ⟨"\x7b\x7ba\x7d\x7d", ""⟩
        [("\x7b\x7ba\x7d\x7d", "ca"), ("\x7b\x7bb\x7d\x7d", "cb")]
        [("ca", "\x7b\x7bb\x7d\x7d"), ("cb", "X")]).1 = "X" ∧
    (render ⟨"\x7b\x7ba\x7d\x7d", ""⟩
        [("\x7b\x7ba\x7d\x7d", "ca"), ("\x7b\x7bb\x7d\x7d", "cb")]
        [("ca", "\x7b\x7bb\x7d\x7d"), ("cb", "X")]).1 ≠ "\x7b\x7bb\x7d\x7d" := by
  decide

/-- Claim C2, amended.  Rendering replaces every occurrence of each
mapped placeholder token, matched as an exact literal string (regex
metacharacters in the token are escaped), and a single entry's pass
never rescans what it inserted; but the replacement value is spliced
by JS `String.replace` semantics, which interprets dollar patterns in
the value (`$$` a literal dollar, `$&` the matched token, the
dollar-backquote and dollar-quote forms the text before/after the
match) - only a dollar-free value is inserted verbatim - and the
passes run sequentially over the mapping entries in order, so a value
containing the token of a LATER-processed entry is further substituted
by that later pass, while one containing an EARLIER-processed token is
not.  Conjuncts: (a) every dollar-free value replaces both occurrences
of a doubled token verbatim (even a value containing the token itself
is not rescanned); (b) regex metacharacters in a token are not
interpreted: `{{n.+}}` does not swallow `{{nX}}`; (c) a dollar-free
value holding the second entry's token is substituted by the second
pass; (d) a value holding the first entry's token survives the
(already finished) first pass; (e) the value `$&` re-inserts the
matched token instead of being spliced literally; (f) the
dollar-backquote value inserts the text preceding the match; (g) `$$`
collapses to one literal dollar. -/
theorem c2_amended :
    (∀ v : String, Char.ofNat 36 ∉ v.data →
      (render ⟨"\x7b\x7bn\x7d\x7d and \x7b\x7bn\x7d\x7d", ""⟩
          [("\x7b\x7bn\x7d\x7d", "c")] [("c", v)]).1 = v ++ " and " ++ v) ∧
    (∀ v : String, Char.ofNat 36 ∉ v.data →
      (render ⟨"\x7b\x7bn.+\x7d\x7d!\x7b\x7bnX\x7d\x7d", ""⟩
          [("\x7b\x7bn.+\x7d\x7d", "c")] [("c", v)]).1 = v ++ "!\x7b\x7bnX\x7d\x7d") ∧
    (∀ w : String, Char.ofNat 36 ∉ w.data →
      (render ⟨"\x7b\x7ba\x7d\x7d", ""⟩
          [("\x7b\x7ba\x7d\x7d", "ca"), ("\x7b\x7bb\x7d\x7d", "cb")]
          [("ca", "\x7b\x7bb\x7d\x7d"), ("cb", w)]).1 = w) ∧
    ((render ⟨"\x7b\x7bb\x7d\x7d", ""⟩
        [("\x7b\x7ba\x7d\x7d", "ca"), ("\x7b\x7bb\x7d\x7d", "cb")]
        [("ca", "ZZ"), ("cb", "\x7b\x7ba\x7d\x7d")]).1 = "\x7b\x7ba\x7d\x7d") ∧
    ((render ⟨"\x7b\x7bn\x7d\x7d!", ""⟩
        [("\x7b\x7bn\x7d\x7d", "c")] [("c", "$&")]).1 = "\x7b\x7bn\x7d\x7d!") ∧
    ((render ⟨"ab\x7b\x7bn\x7d\x7d", ""⟩
        [("\x7b\x7bn\x7d\x7d", "c")] [("c", "$\x60")]).1 = "abab") ∧
    ((render ⟨"\x7b\x7bn\x7d\x7d", ""⟩
        [("\x7b\x7bn\x7d\x7d", "c")] [("c", "$$x")]).1 = "$x") := by
  refine ⟨?_, ?_, ?_, ?_, ?_, ?_, ?_⟩
  · intro v hv
    obtain ⟨lv⟩ := v
    show String.mk
        (expandDollar "\x7b\x7bn\x7d\x7d".data [] " and \x7b\x7bn\x7d\x7d".data lv ++
          (" and ".data ++
            (expandDollar "\x7b\x7bn\x7d\x7d".data "\x7b\x7bn\x7d\x7d and ".data [] lv ++
              []))) =
      String.mk ((lv ++ " and ".data) ++ lv)
    rw [expandDollar_of_no_dollar "\x7b\x7bn\x7d\x7d".data [] " and \x7b\x7bn\x7d\x7d".data
        lv hv,
      expandDollar_of_no_dollar "\x7b\x7bn\x7d\x7d".data "\x7b\x7bn\x7d\x7d and ".data []
        lv hv]
    simp
  · intro v hv
    obtain ⟨lv⟩ := v
    show String.mk
        (expandDollar "\x7b\x7bn.+\x7d\x7d".data [] "!\x7b\x7bnX\x7d\x7d".data lv ++
          "!\x7b\x7bnX\x7d\x7d".data) =
      String.mk (lv ++ "!\x7b\x7bnX\x7d\x7d".data)
    rw [expandDollar_of_no_dollar "\x7b\x7bn.+\x7d\x7d".data [] "!\x7b\x7bnX\x7d\x7d".data
        lv hv]
  · intro w hw
    obtain ⟨lw⟩ := w
    show String.mk (expandDollar "\x7b\x7bb\x7d\x7d".data [] [] lw ++ []) = String.mk lw
    rw [expandDollar_of_no_dollar "\x7b\x7bb\x7d\x7d".data [] [] lw hw]
    simp
  · decide
  · decide
  · decide
  · decide

/-- Witness for `c2_amended` at concrete dollar-free values. -/
theorem c2_amended_witness :
    (render ⟨"\x7b\x7bn\x7d\x7d and \x7b\x7bn\x7d\x7d", ""⟩
        [("\x7b\x7bn\x7d\x7d", "c")] [("c", "Ana")]).1 = "Ana" ++ " and " ++ "Ana" ∧
    (render ⟨"\x7b\x7ba\x7d\x7d", ""⟩
        [("\x7b\x7ba\x7d\x7d", "ca"), ("\x7b\x7bb\x7d\x7d", "cb")]
        [("ca", "\x7b\x7bb\x7d\x7d"), ("cb", "Bob")]).1 = "Bob" :=
  ⟨c2_amended.1 "Ana" (by decide), c2_amended.2.2.1 "Bob" (by decide)⟩

/-! ## Claim C5 -/

/-- Claim C5, counterexample.  The claim says the fixed inter-message
delay is applied after every attempt, success or failure alike.  In a
two-recipient run whose first send fails and whose second succeeds,
the full trace shows no delay between the first attempt's failure
write and the second attempt's send call: the only delay follows the
successful attempt (one delay event, two attempts). -/
theorem c5_counterexample :
    (sendEmailsInBackground
      (fun i _ => if i = 0 then .error "boom" else .ok ())
      ⟨"s", "b"⟩
      [⟨"c", "u", some "a@b", .pending, []⟩, ⟨"c", "u", some "c@d", .pending, []⟩]
      [] none).events =
      [.sendCall ⟨some "a@b", "s", "b", none⟩,
       .recipientUpdate 0 (.failed "boom"),
       .sendCall ⟨some "c@d", "s", "b", none⟩,
       .recipientUpdate 1 .sent,
       .delay 1000,
       .finalUpdate .completed 1 1 true] ∧
    (sendEmailsInBackground
      (fun i _ => if i = 0 then .error "boom" else .ok ())
      ⟨"s", "b"⟩
      [⟨"c", "u", some "a@b", .pending, []⟩, ⟨"c", "u", some "c@d", .pending, []⟩]
      [] none).events.countP isDelay = 1 := by
  decide

/-- Claim C5, amended.  The fixed 1000 ms inter-message delay is
applied only after successful attempts: in every run, the number of
delay events equals the sent counter, not the attempt count; a failed
attempt proceeds to the next recipient without the delay. -/
theorem c5_amended :
    ∀ (send : SendFun) (template : Template) (recipients : List RecipientRow)
      (mapping : Mapping) (smtp : Option SmtpConfig),
      (sendEmailsInBackground send template recipients mapping smtp).events.countP
          isDelay =
        (sendEmailsInBackground send template recipients mapping smtp).sent := by
  intro send template recipients mapping smtp
  rw [sendEmailsInBackground_eq]
  have h := foldl_step_delays template mapping smtp send recipients.enum ⟨0, 0, []⟩
  simp only [List.countP_nil] at h
  simp [List.countP_append, List.countP_cons, finalWrite_not_delay]
  omega

/-! ## Claim C6 -/

/-- Claim C6, confirmed.  Each loop iteration increments exactly one
of the two counters, so after `k` iterations
`sent + failed = min k total`; hence at every point of the run
`sent + failed ≤ total_recipients`, and when the run has attempted all
recipients, `sent + failed = total_recipients`. -/
theorem c6_counter_invariant :
    ∀ (send : SendFun) (template : Template) (recipients : List RecipientRow)
      (mapping : Mapping) (smtp : Option SmtpConfig),
      (∀ k : Nat,
        (partialRun send template recipients mapping smtp k).sent +
          (partialRun send template recipients mapping smtp k).failed =
        min k recipients.length) ∧
      (∀ k : Nat,
        (partialRun send template recipients mapping smtp k).sent +
          (partialRun send template recipients mapping smtp k).failed ≤
        recipients.length) ∧
      ((sendEmailsInBackground send template recipients mapping smtp).sent +
        (sendEmailsInBackground send template recipients mapping smtp).failed =
        recipients.length) := by
  intro send template recipients mapping smtp
  have hk : ∀ k : Nat,
      (partialRun send template recipients mapping smtp k).sent +
        (partialRun send template recipients mapping smtp k).failed =
      min k recipients.length := by
    intro k
    rw [partialRun, foldl_step_sum]
    simp [List.length_take]
  refine ⟨hk, fun k => ?_, ?_⟩
  · have := hk k
    omega
  · rw [sendEmailsInBackground_eq]
    show (recipients.enum.foldl (dispatchStep template mapping smtp send) ⟨0, 0, []⟩).sent +
      (recipients.enum.foldl (dispatchStep template mapping smtp send) ⟨0, 0, []⟩).failed =
      recipients.length
    rw [foldl_step_sum]
    simp

/-! ## Claim C7 -/

set_option maxRecDepth 100000

/-- Claim C7, confirmed.  An aggregate checkpoint write occurs exactly
after every 10th completed attempt: after `k` attempts the trace holds
`k / 10` checkpoint writes (so exactly at attempts 10, 20, ...).  In
the 25-recipient all-success scenario the checkpoint writes are
exactly `(10, 0)` and `(20, 0)`, and the final write sets status
completed with sent 25, failed 0 and the completion timestamp. -/
theorem c7_checkpoint_cadence :
    (∀ (send : SendFun) (template : Template) (recipients : List RecipientRow)
        (mapping : Mapping) (smtp : Option SmtpConfig) (k : Nat),
      (partialRun send template recipients mapping smtp k).events.countP isCheckpoint =
        min k recipients.length / 10) ∧
    ((sendEmailsInBackground (fun _ _ => .ok ()) ⟨"s", "b"⟩
        (List.replicate 25 ⟨"c", "u", some "a@b", .pending, []⟩) [] none).events.filter
          isCheckpoint = [.checkpoint 10 0, .checkpoint 20 0]) ∧
    ((sendEmailsInBackground (fun _ _ => .ok ()) ⟨"s", "b"⟩
        (List.replicate 25 ⟨"c", "u", some "a@b", .pending, []⟩) [] none).events.getLast? =
      some (.finalUpdate .completed 25 0 true)) := by
  refine ⟨?_, by decide, by decide⟩
  intro send template recipients mapping smtp k
  have h := foldl_step_checkpoints template mapping smtp send
    (recipients.enum.take k) ⟨0, 0, []⟩
  simp only [List.countP_nil, List.length_take, List.enum_length] at h
  rw [partialRun]
  omega

/-! ## Claim C8 -/

/-- Claim C8, confirmed.  The recipient status writes of any run are
exactly one per recipient, in input order, and each is a function of
that recipient's own send outcome alone (`sent` on success, `failed`
with the error's message on failure) - so one recipient's failure
neither stops the loop nor changes any other recipient's write - and
a mail-send call is made for every recipient regardless of earlier
failures. -/
theorem c8_failure_isolation :
    ∀ (send : SendFun) (template : Template) (recipients : List RecipientRow)
      (mapping : Mapping) (smtp : Option SmtpConfig),
      ((sendEmailsInBackground send template recipients mapping smtp).events.filter
          isRecipientUpdate =
        recipients.enum.map (expectedUpdate template mapping smtp send)) ∧
      ((sendEmailsInBackground send template recipients mapping smtp).events.countP
          isSendCall = recipients.length) := by
  intro send template recipients mapping smtp
  rw [sendEmailsInBackground_eq]
  constructor
  · have h := foldl_step_updates template mapping smtp send recipients.enum ⟨0, 0, []⟩
    simp only [List.filter_nil, List.nil_append] at h
    simp [List.filter_append, h, finalWrite_not_update]
  · have h := foldl_step_sendCalls template mapping smtp send recipients.enum ⟨0, 0, []⟩
    simp only [List.countP_nil] at h
    simp [List.countP_append, List.countP_cons, h, finalWrite_not_sendCall]

/-! ## Claim C9 -/

/-- Claim C9, confirmed.  The final campaign write is always either
`completed` with the completion timestamp set, or `paused` without it,
and it is `completed` exactly when `sent + failed` equals the total;
in every finished run of this model the last event is that completed
write with the final counters; in particular a run in which every
send fails still terminates `completed` (with the timestamp), never a
distinct failed terminal state. -/
theorem c9_terminal_state :
    (∀ s f t : Nat,
      (finalWrite s f t = .finalUpdate .completed s f true ∨
       finalWrite s f t = .finalUpdate .paused s f false) ∧
      (finalWrite s f t = .finalUpdate .completed s f true ↔ s + f = t)) ∧
    (∀ (send : SendFun) (template : Template) (recipients : List RecipientRow)
        (mapping : Mapping) (smtp : Option SmtpConfig),
      (sendEmailsInBackground send template recipients mapping smtp).events.getLast? =
        some (.finalUpdate .completed
          (sendEmailsInBackground send template recipients mapping smtp).sent
          (sendEmailsInBackground send template recipients mapping smtp).failed true)) ∧
    (∀ (template : Template) (recipients : List RecipientRow) (mapping : Mapping)
        (smtp : Option SmtpConfig) (msg : String),
      (sendEmailsInBackground (fun _ _ => Except.error msg) template recipients
          mapping smtp).sent = 0 ∧
      (sendEmailsInBackground (fun _ _ => Except.error msg) template recipients
          mapping smtp).failed = recipients.length ∧
      (sendEmailsInBackground (fun _ _ => Except.error msg) template recipients
          mapping smtp).events.getLast? =
        some (.finalUpdate .completed 0 recipients.length true)) := by
  refine ⟨?_, ?_, ?_⟩
  · intro s f t
    constructor
    · by_cases h : s + f = t
      · exact Or.inl (finalWrite_of_eq s f t h)
      · exact Or.inr (finalWrite_of_ne s f t h)
    · constructor
      · intro he
        by_contra h
        rw [finalWrite_of_ne s f t h] at he
        simp at he
      · intro h
        exact finalWrite_of_eq s f t h
  · intro send template recipients mapping smtp
    rw [sendEmailsInBackground_eq]
    have hsum := foldl_step_sum template mapping smtp send recipients.enum ⟨0, 0, []⟩
    simp only [List.enum_length] at hsum
    rw [List.getLast?_concat,
      finalWrite_of_eq _ _ recipients.length (by simpa using hsum)]
  · intro template recipients mapping smtp msg
    have hsent := foldl_step_allfail_sent template mapping smtp msg
      recipients.enum ⟨0, 0, []⟩
    have hsum := foldl_step_sum template mapping smtp (fun _ _ => Except.error msg)
      recipients.enum ⟨0, 0, []⟩
    simp only [List.enum_length] at hsum
    have hs0 : (recipients.enum.foldl
        (dispatchStep template mapping smtp (fun _ _ => Except.error msg))
        ⟨0, 0, []⟩).sent = 0 := by simpa using hsent
    have hfn : (recipients.enum.foldl
        (dispatchStep template mapping smtp (fun _ _ => Except.error msg))
        ⟨0, 0, []⟩).failed = recipients.length := by omega
    refine ⟨?_, ?_, ?_⟩
    · rw [sendEmailsInBackground_eq]; exact hs0
    · rw [sendEmailsInBackground_eq]; exact hfn
    · rw [sendEmailsInBackground_eq, List.getLast?_concat]
      rw [hs0, hfn, finalWrite_of_eq 0 recipients.length recipients.length (by omega)]

/-! ## Claim C3 -/

/-- Claim C3, counterexample.  The claim says a launch with zero
recipients is rejected with an error response before any recipient row
is created and with no campaign mutation.  For an authorized request
with an empty CSV list, the handler instead answers 200 success,
issues the campaign activation write (status active, totals zeroed),
performs the (empty) recipient insertion, and the detached run
immediately writes the campaign completed. -/
theorem c3_counterexample :
    (handler (fun _ => some "user-1") (fun _ _ => .ok ())
      ⟨some "tok", "camp-1", ⟨⟨"s", "b"⟩, [], [], none⟩⟩).httpStatus = 200 ∧
    (handler (fun _ => some "user-1") (fun _ _ => .ok ())
      ⟨some "tok", "camp-1", ⟨⟨"s", "b"⟩, [], [], none⟩⟩).errorMsg = none ∧
    (handler (fun _ => some "user-1") (fun _ _ => .ok ())
      ⟨some "tok", "camp-1", ⟨⟨"s", "b"⟩, [], [], none⟩⟩).campaignUpdate =
      some ⟨.active, 0, 0, 0⟩ ∧
    (handler (fun _ => some "user-1") (fun _ _ => .ok ())
      ⟨some "tok", "camp-1", ⟨⟨"s", "b"⟩, [], [], none⟩⟩).run =
      some ⟨0, 0, [.finalUpdate .completed 0 0 true]⟩ := by
  decide

/-- Claim C3, amended.  An empty recipient list is not rejected: for
every authorized launch request with zero CSV rows, the handler
proceeds exactly as for any list - it inserts the (empty) recipient
batch, writes the campaign active with total 0, starts the detached
run (which immediately writes the campaign completed with zero
counters), and answers 200 success with no error. -/
theorem c3_amended :
    ∀ (getUser : String → Option String) (send : SendFun) (tk uid cid : String)
      (t : Template) (m : Mapping) (smtp : Option SmtpConfig),
      tk ≠ "" → getUser tk = some uid →
      handler getUser send ⟨some tk, cid, ⟨t, [], m, smtp⟩⟩ =
        ⟨200, none, some [], some ⟨.active, 0, 0, 0⟩,
         some ⟨0, 0, [.finalUpdate .completed 0 0 true]⟩⟩ := by
  intro getUser send tk uid cid t m smtp htk hu
  simp only [handler]
  rw [if_neg htk, hu]
  rfl

/-- Witness for `c3_amended` at concrete inputs. -/
theorem c3_amended_witness :
    handler (fun _ => some "uid-1") (fun _ _ => .ok ())
      ⟨some "tk-1", "cid-1", ⟨⟨"subj", "body"⟩, [], [], none⟩⟩ =
      ⟨200, none, some [], some ⟨.active, 0, 0, 0⟩,
       some ⟨0, 0, [.finalUpdate .completed 0 0 true]⟩⟩ :=
  c3_amended (fun _ => some "uid-1") (fun _ _ => .ok ()) "tk-1" "uid-1" "cid-1"
    ⟨"subj", "body"⟩ [] none (by decide) rfl

/-! ## Claim C4 -/

/-- Claim C4, counterexample.  The claim says a missing or invalid
sender configuration makes the dispatcher reject the job before any
recipient is processed, with no mail-send call and the campaign left
in its pre-launch status.  For an authorized two-recipient launch with
NO sender configuration and a mail service that refuses every call,
the handler instead accepts (200), writes the campaign active, the run
makes a mail-send call for both recipients, and the final write marks
the campaign completed with two failures. -/
theorem c4_counterexample :
    (handler (fun _ => some "u") (fun _ _ => .error "smtp connection refused")
      ⟨some "tok", "c1",
       ⟨⟨"s", "b"⟩, [[("email", "a@b")], [("email", "c@d")]], [], none⟩⟩).httpStatus =
      200 ∧
    (handler (fun _ => some "u") (fun _ _ => .error "smtp connection refused")
      ⟨some "tok", "c1",
       ⟨⟨"s", "b"⟩, [[("email", "a@b")], [("email", "c@d")]], [], none⟩⟩).campaignUpdate =
      some ⟨.active, 2, 0, 0⟩ ∧
    (handler (fun _ => some "u") (fun _ _ => .error "smtp connection refused")
      ⟨some "tok", "c1",
       ⟨⟨"s", "b"⟩, [[("email", "a@b")], [("email", "c@d")]], [], none⟩⟩).run.map
        (fun r => r.events.countP isSendCall) = some 2 ∧
    (handler (fun _ => some "u") (fun _ _ => .error "smtp connection refused")
      ⟨some "tok", "c1",
       ⟨⟨"s", "b"⟩, [[("email", "a@b")], [("email", "c@d")]], [], none⟩⟩).run.map
        (fun r => r.events.getLast?) =
      some (some (.finalUpdate .completed 0 2 true)) := by
  decide

/-- Claim C4, amended.  The sender configuration is never validated:
for every authorized launch request, whatever `smtpConfig` is
(including absent), the handler accepts with 200, writes the campaign
active, and the run issues exactly one mail-send call per recipient,
each carrying the payload rendered for that recipient with the
supplied configuration forwarded untouched; send failures surface only
as per-recipient outcomes. -/
theorem c4_amended :
    ∀ (getUser : String → Option String) (send : SendFun) (tk uid cid : String)
      (t : Template) (m : Mapping) (smtp : Option SmtpConfig) (rows : List Row),
      tk ≠ "" → getUser tk = some uid →
      ((handler getUser send ⟨some tk, cid, ⟨t, rows, m, smtp⟩⟩).httpStatus = 200) ∧
      ((handler getUser send ⟨some tk, cid, ⟨t, rows, m, smtp⟩⟩).campaignUpdate =
        some ⟨.active, rows.length, 0, 0⟩) ∧
      ((handler getUser send ⟨some tk, cid, ⟨t, rows, m, smtp⟩⟩).run.map
          (fun r => r.events.filter isSendCall) =
        some (((rows.map (toRecipientRow cid uid m)).enum).map
          (fun ir => Event.sendCall (emailFor t m smtp ir.2)))) := by
  intro getUser send tk uid cid t m smtp rows htk hu
  have hh : handler getUser send ⟨some tk, cid, ⟨t, rows, m, smtp⟩⟩ =
      ⟨200, none, some (rows.map (toRecipientRow cid uid m)),
       some ⟨.active, rows.length, 0, 0⟩,
       some (sendEmailsInBackground send t (rows.map (toRecipientRow cid uid m))
         m smtp)⟩ := by
    simp only [handler]
    rw [if_neg htk, hu]
  rw [hh]
  refine ⟨rfl, rfl, ?_⟩
  rw [Option.map_some']
  rw [sendEmailsInBackground_eq]
  have h := foldl_step_filter_sendCalls t m smtp send
    (rows.map (toRecipientRow cid uid m)).enum ⟨0, 0, []⟩
  simp only [List.filter_nil, List.nil_append] at h
  simp [List.filter_append, h, finalWrite_not_sendCall]

/-- Witness for `c4_amended` at concrete inputs. -/
theorem c4_amended_witness :
    ((handler (fun _ => some "u9") (fun _ _ => .error "refused")
        ⟨some "t9", "c9", ⟨⟨"s9", "b9"⟩, [[("email", "a@b")]], [], none⟩⟩).httpStatus =
      200) ∧
    ((handler (fun _ => some "u9") (fun _ _ => .error "refused")
        ⟨some "t9", "c9", ⟨⟨"s9", "b9"⟩, [[("email", "a@b")]], [], none⟩⟩).campaignUpdate =
      some ⟨.active, ([[("email", "a@b")]] : List Row).length, 0, 0⟩) ∧
    ((handler (fun _ => some "u9") (fun _ _ => .error "refused")
        ⟨some "t9", "c9", ⟨⟨"s9", "b9"⟩, [[("email", "a@b")]], [], none⟩⟩).run.map
        (fun r => r.events.filter isSendCall) =
      some (((([[("email", "a@b")]] : List Row).map
          (toRecipientRow "c9" "u9" [])).enum).map
        (fun ir => Event.sendCall (emailFor ⟨"s9", "b9"⟩ [] none ir.2)))) :=
  c4_amended (fun _ => some "u9") (fun _ _ => .error "refused") "t9" "u9" "c9"
    ⟨"s9", "b9"⟩ [] none [[("email", "a@b")]] (by decide) rfl

/-! ## Claim C10 -/

/-- Claim C10, counterexample.  The claim says the mapped column is
used whenever a mapping entry for the email token exists.  When the
entry exists but is the EMPTY column name, the code falls back to the
`email` column (JS `|| 'email'` on a falsy value), while the claim as
worded chooses the empty-named column; a row carrying a value under
the empty column name separates the two. -/
theorem c10_counterexample :
    resolveEmail [(emailTok, "")] [("", "hidden@x"), ("email", "real@x")] =
      some "real@x" ∧
    resolveEmailClaim [(emailTok, "")] [("", "hidden@x"), ("email", "real@x")] =
      some "hidden@x" ∧
    (toRecipientRow "c" "u" [(emailTok, "")]
        [("", "hidden@x"), ("email", "real@x")]).email ≠
      resolveEmailClaim [(emailTok, "")] [("", "hidden@x"), ("email", "real@x")] := by
  decide

/-- Claim C10, amended.  The created Recipient's email is taken from
the CSV column the email token is mapped to when such an entry exists
AND is a nonempty column name, otherwise from the `email` column; if
the chosen column's value is empty or absent in the row, the row's
`email` field is the fallback.  The code's resolution and the amended
wording agree on every mapping and row. -/
theorem c10_amended :
    ∀ (m : Mapping) (row : Row) (cid uid : String),
      resolveEmail m row = resolveEmailClaimAmended m row ∧
      (toRecipientRow cid uid m row).email = resolveEmailClaimAmended m row := by
  intro m row cid uid
  have h : resolveEmail m row = resolveEmailClaimAmended m row := by
    unfold resolveEmail resolveEmailClaimAmended
    cases hm : m.lookup emailTok with
    | none =>
      simp only [truthyStr]
      cases hr : row.lookup "email" with
      | none => simp [truthyStr, hr]
      | some v => by_cases hv : v = "" <;> simp [truthyStr, hr, hv]
    | some c =>
      by_cases hc : c = ""
      · subst hc
        simp only [truthyStr, if_pos rfl]
        cases hr : row.lookup "email" with
        | none => simp [truthyStr, hr]
        | some v => by_cases hv : v = "" <;> simp [truthyStr, hr, hv]
      · simp only [truthyStr, if_neg hc]
        have hct : (c != "") = true := by simpa using hc
        simp only [hct, if_true, Option.getD_some]
        cases hr : row.lookup c with
        | none => simp [truthyStr, hr]
        | some v => by_cases hv : v = "" <;> simp [truthyStr, hr, hv]
  exact ⟨h, h⟩

end CampaignPilot
